import Mathlib

/-!
Verification of the career-advisor agent core (retrying transport,
structured extraction pipeline, agent cache, usage statistics).

The definitions below are a shallow embedding of the Python sources:
  - `career_advisor_agent/tools/llm_interface.py`   (OpenRouterLLM)
  - `career_advisor_agent/tools/tavily_search.py`   (TavilySearchTool)
  - `career_advisor_agent/agents/base_agent.py`     (BaseAgent)
  - `career_advisor_agent/agents/profile_analyzer.py` (ProfileAnalyzerAgent)

Python `json.loads` is modelled by an executable recursive-descent parser
over `List Char` (`jsonLoads` below).  The model covers the JSON fragment
exercised here: null / true / false, decimal numbers without exponent
part and without the leading-zero restriction, strings with the
single-character escapes, arrays and objects.  `json.loads` accepts a
single value surrounded only by JSON whitespace (space, tab, newline,
carriage return); anything left over is an error ("Extra data"), which
the model mirrors by demanding an empty remainder.
-/

/-- A JSON number, kept syntactically: `mantissa / 10 ^ exponent`.
Integer literals have `exponent = 0`. -/
structure JNum where
  mantissa : Int
  exponent : Nat
  deriving DecidableEq, Repr

/-- JSON values as produced by the model of `json.loads`.  Objects keep
their key/value pairs in parse order. -/
inductive Json where
  | null : Json
  | bool (b : Bool) : Json
  | num (n : JNum) : Json
  | str (s : String) : Json
  | arr (xs : List Json) : Json
  | obj (kvs : List (String × Json)) : Json

/-- JSON whitespace as used by Python's `json` decoder: space, tab,
newline, carriage return. -/
def isJsonWs (c : Char) : Bool :=
  c = ' ' || c = '\t' || c = '\n' || c = '\r'

/-- Drop leading JSON whitespace. -/
def skipWs : List Char → List Char
  | [] => []
  | c :: cs => if isJsonWs c then skipWs cs else c :: cs

/-- Decode a single-character string escape (the `\uXXXX` form is not
modelled; inputs in this development never use it). -/
def escChar : Char → Option Char
  | '"' => some '"'
  | '\\' => some '\\'
  | '/' => some '/'
  | 'b' => some '\x08'
  | 'f' => some '\x0c'
  | 'n' => some '\n'
  | 'r' => some '\r'
  | 't' => some '\t'
  | _ => none

/-- Parse the characters of a string literal after the opening quote,
returning the decoded characters and the remainder after the closing
quote. -/
def parseStrChars : Nat → List Char → Option (List Char × List Char)
  | 0, _ => none
  | _ + 1, [] => none
  | fuel + 1, c :: cs =>
    if c = '"' then some ([], cs)
    else if c = '\\' then
      match cs with
      | [] => none
      | e :: cs1 => do
        let d ← escChar e
        let (s, r) ← parseStrChars fuel cs1
        pure (d :: s, r)
    else do
      let (s, r) ← parseStrChars fuel cs
      pure (c :: s, r)

/-- Leading decimal digits of a character list, as digit values, with the
remainder. -/
def takeDigits : List Char → List Nat × List Char
  | [] => ([], [])
  | c :: cs =>
    if c.isDigit then
      let (ds, r) := takeDigits cs
      ((c.toNat - '0'.toNat) :: ds, r)
    else ([], c :: cs)

/-- Natural number denoted by a digit list (most significant first). -/
def natFromDigits (ds : List Nat) : Nat :=
  ds.foldl (fun a d => a * 10 + d) 0

/-- Parse a JSON number: optional minus sign, digits, optional fraction.
Exponent forms are not modelled (unused by this development). -/
def parseNumber (cs : List Char) : Option (JNum × List Char) :=
  let (neg, cs1) := match cs with
    | '-' :: t => (true, t)
    | _ => (false, cs)
  let (ds, cs2) := takeDigits cs1
  if ds.isEmpty then none
  else
    let ip : Int := (natFromDigits ds : Nat)
    let sign : Int := if neg then -1 else 1
    match cs2 with
    | '.' :: cs3 =>
      let (fs, cs4) := takeDigits cs3
      if fs.isEmpty then none
      else some (⟨sign * (ip * (10 : Int) ^ fs.length + (natFromDigits fs : Nat)), fs.length⟩, cs4)
    | _ => some (⟨sign * ip, 0⟩, cs2)

mutual

/-- Parse one JSON value (fuel-based recursion). -/
def parseValue : Nat → List Char → Option (Json × List Char)
  | 0, _ => none
  | fuel + 1, cs0 =>
    match skipWs cs0 with
    | '[' :: rest =>
      (match skipWs rest with
       | ']' :: r2 => some (Json.arr [], r2)
       | rest1 => do
         let (v, r) ← parseValue fuel rest1
         let (vs, r2) ← parseArrTail fuel r
         pure (Json.arr (v :: vs), r2))
    | '\x7b' :: rest =>
      (match skipWs rest with
       | '\x7d' :: r2 => some (Json.obj [], r2)
       | rest1 => do
         let (kv, r) ← parseMember fuel rest1
         let (kvs, r2) ← parseObjTail fuel r
         pure (Json.obj (kv :: kvs), r2))
    | '"' :: rest => do
      let (s, r) ← parseStrChars (rest.length + 1) rest
      pure (Json.str (String.mk s), r)
    | 't' :: 'r' :: 'u' :: 'e' :: r => some (Json.bool true, r)
    | 'f' :: 'a' :: 'l' :: 's' :: 'e' :: r => some (Json.bool false, r)
    | 'n' :: 'u' :: 'l' :: 'l' :: r => some (Json.null, r)
    | cs => (parseNumber cs).map (fun p => (Json.num p.1, p.2))

/-- After a parsed array element: a comma and a further element, or the
closing bracket. -/
def parseArrTail : Nat → List Char → Option (List Json × List Char)
  | 0, _ => none
  | fuel + 1, cs =>
    match skipWs cs with
    | ']' :: r => some ([], r)
    | ',' :: r => do
      let (v, r1) ← parseValue fuel r
      let (vs, r2) ← parseArrTail fuel r1
      pure (v :: vs, r2)
    | _ => none

/-- Parse one `"key": value` member of an object. -/
def parseMember : Nat → List Char → Option ((String × Json) × List Char)
  | 0, _ => none
  | fuel + 1, cs =>
    match skipWs cs with
    | '"' :: rest => do
      let (k, r) ← parseStrChars (rest.length + 1) rest
      match skipWs r with
      | ':' :: r2 => do
        let (v, r3) ← parseValue fuel r2
        pure ((String.mk k, v), r3)
      | _ => none
    | _ => none

/-- After a parsed object member: a comma and a further member, or the
closing brace. -/
def parseObjTail : Nat → List Char → Option (List (String × Json) × List Char)
  | 0, _ => none
  | fuel + 1, cs =>
    match skipWs cs with
    | '\x7d' :: r => some ([], r)
    | ',' :: r => do
      let (kv, r1) ← parseMember fuel r
      let (kvs, r2) ← parseObjTail fuel r1
      pure (kv :: kvs, r2)
    | _ => none

end

/-- Model of Python `json.loads` on a character list: one JSON value,
surrounded only by JSON whitespace; trailing non-whitespace is an error
("Extra data"), mirrored by `none`. -/
def jsonLoads (cs : List Char) : Option Json :=
  match parseValue (2 * cs.length + 8) cs with
  | some (v, rest) => if skipWs rest = [] then some v else none
  | none => none

/-- Index of the first occurrence of a character, Python `str.find`
(modelled as `Option Nat`; Python's `-1` corresponds to `none`). -/
def findChar (c : Char) : List Char → Option Nat
  | [] => none
  | x :: xs => if x = c then some 0 else (findChar c xs).map (· + 1)

/-- Index of the last occurrence of a character, Python `str.rfind`. -/
def rfindChar (c : Char) : List Char → Option Nat
  | [] => none
  | x :: xs =>
    match rfindChar c xs with
    | some i => some (i + 1)
    | none => if x = c then some 0 else none

/-- Python slice `cs[s : e + 1]` for `s ≤ e`. -/
def pySlice (cs : List Char) (s e : Nat) : List Char :=
  (cs.drop s).take (e + 1 - s)

/-- Whitespace stripped by Python `str.strip` (the ASCII cases). -/
def isStripWs (c : Char) : Bool :=
  c = ' ' || c = '\t' || c = '\n' || c = '\r' || c = '\x0b' || c = '\x0c'

/-- Python `str.strip`: drop leading and trailing whitespace. -/
def pyStrip (cs : List Char) : List Char :=
  ((cs.dropWhile isStripWs).reverse.dropWhile isStripWs).reverse

/-- Python `str.startswith` on character lists. -/
def startsWithList : List Char → List Char → Bool
  | [], _ => true
  | _ :: _, [] => false
  | p :: ps, c :: cs => p = c && startsWithList ps cs

/-- Python `str.endswith` on character lists. -/
def endsWithList (p cs : List Char) : Bool :=
  startsWithList p.reverse cs.reverse

/-- The last-resort cleaning step shared by `_extract_skills` and
`_analyze_profile`: strip, drop a leading "```json" marker (7 chars) and
a trailing "```" marker (3 chars) when present, strip again. -/
def stripFences (cs : List Char) : List Char :=
  let c1 := pyStrip cs
  let c2 := if startsWithList "```json".toList c1 then c1.drop 7 else c1
  let c3 := if endsWithList "```".toList c2 then c2.take (c2.length - 3) else c2
  pyStrip c3

/-- The JSON-locating pipeline duplicated verbatim (up to the delimiter
pair) by `_extract_skills` (lines 169-188) and `_analyze_profile`
(lines 223-242): slice from the first opening delimiter to the last
closing delimiter when both exist in that order, otherwise parse the
whole response; on `JSONDecodeError`, strip code-fence markers and parse
once more.  `none` means every parse attempt failed
(`json.JSONDecodeError` escaping to the outer handler). -/
def parseStageWith (oC cC : Char) (cs : List Char) : Option Json :=
  let attempt :=
    match findChar oC cs, rfindChar cC cs with
    | some s, some e => if s < e then jsonLoads (pySlice cs s e) else jsonLoads cs
    | some _, none => jsonLoads cs
    | none, _ => jsonLoads cs
  match attempt with
  | some v => some v
  | none => jsonLoads (stripFences cs)

/-- The JSON-locating pipeline of `ProfileAnalyzerAgent._extract_skills`
(lines 169-188), delimiters `[` and `]`. -/
def parseStageList (cs : List Char) : Option Json :=
  parseStageWith '[' ']' cs

/-- The JSON-locating pipeline of `ProfileAnalyzerAgent._analyze_profile`
(lines 223-242), delimiters `\x7b` and `\x7d`. -/
def parseStageObj (cs : List Char) : Option Json :=
  parseStageWith '\x7b' '\x7d' cs

/-- The pydantic `Skill` model of `profile_analyzer.py` (lines 18-40):
`category` and `level` are validated case-insensitively against fixed
vocabularies and normalised to lowercase. -/
structure Skill where
  name : String
  category : String
  level : String
  years_experience : JNum
  deriving DecidableEq, Repr

/-- Allowed values of `Skill.level`. -/
def allowedLevels : List String := ["beginner", "intermediate", "advanced", "expert"]

/-- Allowed values of `Skill.category`. -/
def allowedCategories : List String := ["technical", "soft", "domain"]

/-- Python `str.lower` (the ASCII cases, which cover the validator
vocabularies). -/
def pyLower (s : String) : String :=
  String.mk (s.toList.map Char.toLower)

/-- String payload of a JSON value, when it is a string (pydantic `str`
fields; the model requires a genuine JSON string). -/
def asStr : Json → Option String
  | Json.str s => some s
  | _ => none

/-- Numeric payload of a JSON value, when it is a number (the pydantic
`float` field `years_experience`, which has no validator and in
particular no lower bound). -/
def asNum : Json → Option JNum
  | Json.num n => some n
  | _ => none

/-- Model of `Skill(**skill_data)` (lines 192-196): `none` when the
element is not an object, a required field is missing or ill-typed, or a
vocabulary validator rejects it — in the source such an element is
dropped with a warning by the per-item `except` handler. -/
def validateSkill : Json → Option Skill
  | Json.obj kvs => do
    let n ← (kvs.lookup "name").bind asStr
    let c ← (kvs.lookup "category").bind asStr
    let l ← (kvs.lookup "level").bind asStr
    let y ← (kvs.lookup "years_experience").bind asNum
    if pyLower c ∈ allowedCategories ∧ pyLower l ∈ allowedLevels then
      some ⟨n, pyLower c, pyLower l, y⟩
    else none
  | _ => none

/-- The per-item loop of `_extract_skills` (lines 190-197): append each
element that validates, drop the rest. -/
def skillsFromArr (xs : List Json) : List Skill :=
  xs.foldl (fun acc j =>
    match validateSkill j with
    | some s => acc ++ [s]
    | none => acc) []

/-- Model of `ProfileAnalyzerAgent._extract_skills` (lines 155-202).  The
argument is the outcome of `self.llm.get_completion`: `none` when that
call raised (retries exhausted), `some r` for a returned response text.
Every failure path of the source — parse failure, a non-list payload
(iterating a dict yields its keys and `Skill(**key)` fails per item;
iterating a number raises `TypeError` caught by the outer handler) —
yields the empty list. -/
def extract_skills (resp : Option (List Char)) : List Skill :=
  match resp with
  | none => []
  | some r =>
    match parseStageList r with
    | some (Json.arr xs) => skillsFromArr xs
    | some _ => []
    | none => []

/-- The required analysis fields checked by `_analyze_profile`
(lines 245-248). -/
def requiredFields : List String :=
  ["experience_level", "career_progression", "strengths",
   "weaknesses", "career_trajectory", "education_relevance"]

/-- Documented default for a missing analysis field (lines 254-257):
empty list for the two list fields, a fixed sentinel string otherwise. -/
def defaultFor (f : String) : Json :=
  if f = "strengths" ∨ f = "weaknesses" then Json.arr []
  else Json.str "Not enough information to analyze"

/-- One iteration of the repair loop of `_analyze_profile`
(lines 250-257): add the default when the field is absent. -/
def repairStep (kvs : List (String × Json)) (f : String) : List (String × Json) :=
  if (kvs.lookup f).isSome then kvs else kvs ++ [(f, defaultFor f)]

/-- The per-field repair loop of `_analyze_profile` (lines 250-257). -/
def repairFields (kvs : List (String × Json)) : List (String × Json) :=
  requiredFields.foldl repairStep kvs

/-- The fixed default analysis returned by `_analyze_profile` when the
generation call or the whole parse pipeline failed (lines 263-271). -/
def defaultAnalysis : List (String × Json) :=
  [("experience_level", Json.str "mid"),
   ("career_progression", Json.str "Unable to analyze career progression"),
   ("strengths", Json.arr [Json.str "Unable to identify strengths"]),
   ("weaknesses", Json.arr [Json.str "Unable to identify areas for improvement"]),
   ("career_trajectory", Json.str "Unable to analyze career trajectory"),
   ("education_relevance", Json.str "Unable to analyze education relevance")]

/-- Substring test (Python `needle in haystack` on strings). -/
def isSubstrOf (needle : List Char) : List Char → Bool
  | [] => startsWithList needle []
  | c :: cs => startsWithList needle (c :: cs) || isSubstrOf needle cs

/-- Boolean equality on JSON values (used by `pyContainsField`). -/
def jsonBeq : Json → Json → Bool
  | Json.null, Json.null => true
  | Json.bool a, Json.bool b => a == b
  | Json.num a, Json.num b => a == b
  | Json.str a, Json.str b => a == b
  | Json.arr as, Json.arr bs =>
    (match as, bs with
     | [], [] => true
     | x :: xs, y :: ys => jsonBeq x y && jsonBeq (Json.arr xs) (Json.arr ys)
     | _, _ => false)
  | Json.obj as, Json.obj bs =>
    (match as, bs with
     | [], [] => true
     | (k, x) :: xs, (k2, y) :: ys =>
       k == k2 && jsonBeq x y && jsonBeq (Json.obj xs) (Json.obj ys)
     | _, _ => false)
  | _, _ => false

instance : BEq Json := ⟨jsonBeq⟩

/-- Python membership test `field in parsed` for the exotic non-dict
cases of `_analyze_profile`: substring test on strings, element equality
on lists. -/
def pyContainsField (f : String) : Json → Bool
  | Json.str s => isSubstrOf f.toList s.toList
  | Json.arr xs => xs.any (fun j => j == Json.str f)
  | _ => false

/-- Model of `ProfileAnalyzerAgent._analyze_profile` (lines 204-271).
The argument is the outcome of `get_completion` (`none` when it raised).
A parsed object goes through the repair loop.  A parsed list or string
survives the `field in analysis_data` loop only when it already contains
all six field names (Python `in` is element membership resp. substring
search there); otherwise the first assignment `analysis_data[field] = …`
raises `TypeError`, caught by the outer handler, yielding the default
analysis.  Any other parsed value, or total parse failure, or a raised
generation call, yields the default analysis. -/
def analyze_profile (resp : Option (List Char)) : Json :=
  match resp with
  | none => Json.obj defaultAnalysis
  | some r =>
    match parseStageObj r with
    | some (Json.obj kvs) => Json.obj (repairFields kvs)
    | some (Json.arr xs) =>
      if requiredFields.all (fun f => pyContainsField f (Json.arr xs)) then Json.arr xs
      else Json.obj defaultAnalysis
    | some (Json.str s) =>
      if requiredFields.all (fun f => pyContainsField f (Json.str s)) then Json.str s
      else Json.obj defaultAnalysis
    | some _ => Json.obj defaultAnalysis
    | none => Json.obj defaultAnalysis

/-- Allowed values of `ProfileAnalysis.experience_level` (lines 53-59). -/
def allowedExperienceLevels : List String :=
  ["entry", "junior", "mid", "senior", "lead", "executive"]

/-- The pydantic `ProfileAnalysis` model (lines 42-59). -/
structure ProfileAnalysis where
  skills : List Skill
  experience_level : String
  career_progression : String
  strengths : List String
  weaknesses : List String
  career_trajectory : String
  education_relevance : String
  deriving DecidableEq, Repr

/-- A JSON list of strings (pydantic `List[str]` fields). -/
def asStrList : Json → Option (List String)
  | Json.arr xs => xs.mapM asStr
  | _ => none

/-- Model of `ProfileAnalysis(skills=skills, **analysis)` (lines 145-148):
`none` when the construction raises — analysis not a dict (`**` fails), a
duplicate `skills` key, a missing or ill-typed field, or the
`experience_level` validator rejecting the value.  The validator lowers
the value and requires membership in `allowedExperienceLevels`. -/
def mkProfileAnalysis (skills : List Skill) (analysis : Json) : Option ProfileAnalysis :=
  match analysis with
  | Json.obj kvs =>
    if (kvs.lookup "skills").isSome then none
    else do
      let el ← (kvs.lookup "experience_level").bind asStr
      let el ← if pyLower el ∈ allowedExperienceLevels then some (pyLower el) else none
      let cp ← (kvs.lookup "career_progression").bind asStr
      let st ← (kvs.lookup "strengths").bind asStrList
      let wk ← (kvs.lookup "weaknesses").bind asStrList
      let ct ← (kvs.lookup "career_trajectory").bind asStr
      let er ← (kvs.lookup "education_relevance").bind asStr
      some ⟨skills, el, cp, st, wk, ct, er⟩
  | _ => none

/-- Model of `ProfileAnalyzerAgent.execute` (lines 118-153) as a function
of the outcomes of its two `get_completion` calls (`none` = the call
raised after exhausting retries).  The result is `none` exactly when
`execute` raises (the only raising step after input validation is the
`ProfileAnalysis` construction); otherwise the returned analysis object.
The profile text itself only shapes the prompts, not the control flow, so
it does not appear. -/
def executeAgent (skillResp analysisResp : Option (List Char)) : Option ProfileAnalysis :=
  mkProfileAnalysis (extract_skills skillResp) (analyze_profile analysisResp)

/-- Observable side effects of one retry loop run: an invocation of the
underlying call, or a sleep of the given duration in seconds. -/
inductive RetryEvent where
  | call : RetryEvent
  | sleep (d : ℚ) : RetryEvent
  deriving DecidableEq, Repr

/-- How a retry loop run ends: the Python function returns a value (for a
loop that never entered its body, Python returns `None`, modelled by
`returned none`), or the synthesized failure is raised. -/
inductive RetryOutcome (α : Type) where
  | returned (v : Option α) : RetryOutcome α
  | raised : RetryOutcome α
  deriving DecidableEq, Repr

/-- The retry loop shared verbatim by `OpenRouterLLM.generate_text`
(llm_interface.py lines 84-123) and `TavilySearchTool.search`
(tavily_search.py lines 62-86): `for attempt in range(max_retries)`, on
success return, on failure sleep `retry_delay * 2 ** attempt` when
attempts remain, else raise.  `results a` is the outcome of the
underlying call on attempt `a` (`none` = it raised a retryable error);
`fuel` counts the attempts still available, so `attempt + fuel = N`
throughout. -/
def retryAux (results : Nat → Option α) (N : Nat) (d : ℚ) :
    Nat → Nat → List RetryEvent × RetryOutcome α
  | _, 0 => ([], RetryOutcome.returned none)
  | a, fuel + 1 =>
    match results a with
    | some v => ([RetryEvent.call], RetryOutcome.returned (some v))
    | none =>
      if a < N - 1 then
        let t := retryAux results N d (a + 1) fuel
        (RetryEvent.call :: RetryEvent.sleep (d * 2 ^ a) :: t.1, t.2)
      else ([RetryEvent.call], RetryOutcome.raised)

/-- A full run of the retry loop with `max_retries = N` and
`retry_delay = d`, from attempt 0. -/
def retryRun (results : Nat → Option α) (N : Nat) (d : ℚ) :
    List RetryEvent × RetryOutcome α :=
  retryAux results N d 0 N

/-- Number of invocations of the underlying call in a trace. -/
def countCalls (evs : List RetryEvent) : Nat :=
  evs.countP (fun e => e matches RetryEvent.call)

/-- The sleep durations of a trace, in order. -/
def sleepDelays (evs : List RetryEvent) : List ℚ :=
  evs.filterMap (fun e =>
    match e with
    | RetryEvent.sleep d => some d
    | RetryEvent.call => none)

/-- An entry of `BaseAgent.result_cache` (base_agent.py lines 62-65):
the cached payload and its creation timestamp. -/
structure CacheEntry (α : Type) where
  data : α
  timestamp : ℚ
  deriving DecidableEq, Repr

/-- The agent result cache, a keyed map (Python dict). -/
def Cache (α : Type) : Type := String → Option (CacheEntry α)

/-- Model of `BaseAgent._cache_result` (lines 55-65): unconditional store
of the payload with the current time, overwriting any prior entry. -/
def cache_result (c : Cache α) (key : String) (data : α) (now : ℚ) : Cache α :=
  fun k => if k = key then some ⟨data, now⟩ else c k

/-- Model of `BaseAgent._get_cached_result` (lines 67-88): the read
result together with the cache afterwards (the source performs no write
on the read path, which the returned cache makes explicit). -/
def get_cached_result (c : Cache α) (key : String) (maxAge now : ℚ) :
    Option α × Cache α :=
  match c key with
  | none => (none, c)
  | some e => if now - e.timestamp > maxAge then (none, c) else (some e.data, c)

/-- The usage counters of `OpenRouterLLM` (llm_interface.py lines 52-56).
`total_cost` is a float in the source; no operation ever performs
arithmetic on it, so an exact type is faithful. -/
structure LLMState where
  total_tokens : Nat
  total_prompt_tokens : Nat
  total_completion_tokens : Nat
  total_cost : ℚ
  deriving DecidableEq, Repr

/-- Counter state right after `OpenRouterLLM.__init__`. -/
def initLLMState : LLMState := ⟨0, 0, 0, 0⟩

/-- Outcome of one `generate_text` call as far as the counters are
concerned: success with optional usage metadata `(prompt, completion,
total)` (lines 96-101 guard on `hasattr(completion, "usage")`), or
failure after retries. -/
inductive CallOutcome where
  | success (usage : Option (Nat × Nat × Nat)) : CallOutcome
  | failure : CallOutcome

/-- Counter update performed by one `generate_text` call
(lines 96-101): only a success with usage metadata touches the token
counters; nothing ever touches `total_cost`. -/
def generate_text_state (s : LLMState) : CallOutcome → LLMState
  | CallOutcome.success (some (p, c, t)) =>
    { s with
      total_prompt_tokens := s.total_prompt_tokens + p
      total_completion_tokens := s.total_completion_tokens + c
      total_tokens := s.total_tokens + t }
  | CallOutcome.success none => s
  | CallOutcome.failure => s

/-- Counter state after a sequence of `generate_text` calls. -/
def applyCalls (os : List CallOutcome) : LLMState :=
  os.foldl generate_text_state initLLMState

/-- The snapshot returned by `OpenRouterLLM.get_usage_stats`
(lines 138-149). -/
structure UsageStats where
  total_tokens : Nat
  prompt_tokens : Nat
  completion_tokens : Nat
  estimated_cost : ℚ
  deriving DecidableEq, Repr

/-- Model of `OpenRouterLLM.get_usage_stats` (lines 138-149). -/
def get_usage_stats (s : LLMState) : UsageStats :=
  ⟨s.total_tokens, s.total_prompt_tokens, s.total_completion_tokens, s.total_cost⟩

/-- Python `d.get(key, default)` on a JSON value: an `AttributeError`
when the receiver is not a dict. -/
def pyGet (d : Json) (key : String) (dflt : Json) : Except String Json :=
  match d with
  | Json.obj kvs => Except.ok ((kvs.lookup key).getD dflt)
  | _ => Except.error "AttributeError"

/-- Python `l[0]` on a JSON value: `IndexError` on an empty list,
`TypeError` on a non-list. -/
def pyIndex0 : Json → Except String Json
  | Json.arr (x :: _) => Except.ok x
  | Json.arr [] => Except.error "list index out of range"
  | _ => Except.error "TypeError"

/-- Model of the extraction in `OpenRouterLLM.get_completion`
(lines 125-136): `response.get("choices", [dict()])[0]
.get("message", dict()).get("content", "")`, with `Except.error` for a
raised exception. -/
def get_completion (resp : Json) : Except String Json := do
  let cs ← pyGet resp "choices" (Json.arr [Json.obj []])
  let c0 ← pyIndex0 cs
  let msg ← pyGet c0 "message" (Json.obj [])
  pyGet msg "content" (Json.str "")

/-- The code-fence wrapping considered by the fence-invariance property:
a fenced-code opener line at the start and a closer at the end. -/
def wrapFence (cs : List Char) : List Char :=
  "```json\n".toList ++ cs ++ "\n```".toList

/-- The backtick character (first character of the code-fence marker). -/
def bq : Char := "`".toList.headD ' '

/-! Theorems. -/

/-- C2: if every generation call raises (retries exhausted), `execute`
still returns a complete `ProfileAnalysis`-shaped object — empty skill
list, the validator-accepted level "mid", and the fixed sentinel
narrative text in every narrative field — and does not raise (the result
is `some …`, not `none`).  The profile text only shapes the prompts, so
the two raised `get_completion` outcomes (`none`, `none`) cover every
profile text. -/
theorem execute_total_failure_returns_defaults :
    executeAgent none none =
      some ⟨[], "mid", "Unable to analyze career progression",
            ["Unable to identify strengths"],
            ["Unable to identify areas for improvement"],
            "Unable to analyze career trajectory",
            "Unable to analyze education relevance"⟩ := by
  rfl

/-- C10: a well-formed generation response that parses as an object but
omits `experience_level` makes `execute` raise: the repair loop fills the
field with the sentinel "Not enough information to analyze", which the
`ProfileAnalysis` experience-level validator rejects (its lowering is not
in the allowed vocabulary), so the construction raises and `executeAgent`
yields `none` instead of a result. -/
theorem execute_raises_on_missing_experience_level :
    (repairFields
        [("career_progression", Json.str "a"), ("strengths", Json.arr []),
         ("weaknesses", Json.arr []), ("career_trajectory", Json.str "b"),
         ("education_relevance", Json.str "c")]).lookup "experience_level" =
      some (Json.str "Not enough information to analyze")
    ∧ (pyLower "Not enough information to analyze" ∈ allowedExperienceLevels ↔ False)
    ∧ executeAgent (some "[]".toList)
        (some ("\x7b\"career_progression\": \"a\", \"strengths\": [], \"weaknesses\": [], \"career_trajectory\": \"b\", \"education_relevance\": \"c\"\x7d".toList)) =
      none := by
  refine ⟨by rfl, by decide, by rfl⟩

/-- C3, counterexample: the well-formed JSON array "[1, 2]" embedded with
prefix "" and suffix " and also ]" is not recovered.  The slice runs from
the first `[` to the LAST `]` of the whole text, so it covers the stray
`]` of the suffix and fails to parse; the whole-text and fence-stripped
parses fail too, so the pipeline yields `none` and `_extract_skills`
falls back to the empty list instead of the embedded array. -/
theorem embedded_array_not_recovered_cex :
    jsonLoads "[1, 2]".toList = some (Json.arr [Json.num ⟨1, 0⟩, Json.num ⟨2, 0⟩])
    ∧ parseStageList "[1, 2] and also ]".toList = none
    ∧ extract_skills (some "[1, 2] and also ]".toList) = [] := by
  refine ⟨by rfl, by rfl, by rfl⟩

/-- C7, counterexample: an envelope whose "choices" key holds an empty
list has no message/content anywhere, yet `get_completion` raises
`IndexError` on `response.get("choices", [dict()])[0]` instead of
returning the empty string. -/
theorem get_completion_empty_choices_raises_cex :
    get_completion (Json.obj [("choices", Json.arr [])]) =
      Except.error "list index out of range" := by
  rfl

/-- C6: the cache contract of `BaseAgent`.  A write stores
unconditionally, overwriting any prior entry for that key and leaving
other keys alone; a read after a write at time `t` returns the stored
value exactly when `now - t ≤ max_age` and otherwise reports `none`; and
every read leaves the cache map unchanged (stale entries included). -/
theorem cache_contract {α : Type} (c : Cache α) (key : String) (d : α)
    (t maxAge now : ℚ) :
    cache_result c key d t = (fun k => if k = key then some ⟨d, t⟩ else c k)
    ∧ (get_cached_result (cache_result c key d t) key maxAge now).1 =
        (if now - t ≤ maxAge then some d else none)
    ∧ (get_cached_result c key maxAge now).2 = c := by
  refine ⟨rfl, ?_, ?_⟩
  · show (get_cached_result (cache_result c key d t) key maxAge now).1 = _
    have hk : cache_result c key d t key = some ⟨d, t⟩ := by
      simp [cache_result]
    simp only [get_cached_result, hk]
    by_cases h : now - t > maxAge
    · rw [if_pos h, if_neg (by exact not_le.mpr h)]
    · rw [if_neg h, if_pos (le_of_not_lt h)]
  · unfold get_cached_result
    cases h : c key with
    | none => rfl
    | some e => by_cases h2 : now - e.timestamp > maxAge <;> simp [h2]

/-- C9: `estimated_cost` reported by `get_usage_stats` is exactly 0 after
every sequence of successful or failed `generate_text` calls, because
`total_cost` starts at 0 and no operation modifies it; the token
counters, by contrast, never decrease under any single call. -/
theorem estimated_cost_always_zero (os : List CallOutcome) :
    (applyCalls os).total_cost = 0
    ∧ (get_usage_stats (applyCalls os)).estimated_cost = 0
    ∧ (∀ (s : LLMState) (o : CallOutcome),
        s.total_tokens ≤ (generate_text_state s o).total_tokens
        ∧ s.total_prompt_tokens ≤ (generate_text_state s o).total_prompt_tokens
        ∧ s.total_completion_tokens ≤ (generate_text_state s o).total_completion_tokens) := by
  have hcost : ∀ (s : LLMState) (o : CallOutcome),
      (generate_text_state s o).total_cost = s.total_cost := by
    intro s o
    cases o with
    | success u => cases u with
      | none => rfl
      | some p => rcases p with ⟨p1, p2, p3⟩; rfl
    | failure => rfl
  have hfold : ∀ (l : List CallOutcome) (s : LLMState),
      (l.foldl generate_text_state s).total_cost = s.total_cost := by
    intro l
    induction l with
    | nil => intro s; rfl
    | cons o l ih => intro s; rw [List.foldl_cons, ih, hcost]
  refine ⟨hfold os initLLMState, ?_, ?_⟩
  · show (applyCalls os).total_cost = 0
    exact hfold os initLLMState
  · intro s o
    cases o with
    | success u => cases u with
      | none => exact ⟨le_refl _, le_refl _, le_refl _⟩
      | some p =>
        rcases p with ⟨p1, p2, p3⟩
        exact ⟨Nat.le_add_right _ _, Nat.le_add_right _ _, Nat.le_add_right _ _⟩
    | failure => exact ⟨le_refl _, le_refl _, le_refl _⟩

/-- Lookup in an appended association list when the key is found on the
left. -/
theorem lookup_append_of_some {β : Type} (l1 l2 : List (String × β)) (k : String)
    (v : β) (h : l1.lookup k = some v) : (l1 ++ l2).lookup k = some v := by
  induction l1 with
  | nil => simp [List.lookup] at h
  | cons p l ih =>
    rcases p with ⟨k1, v1⟩
    by_cases hk : k = k1
    · have hbeq : (k == k1) = true := by simp [hk]
      simp only [List.lookup, hbeq] at h ⊢; exact h
    · have hbeq : (k == k1) = false := by simp [hk]
      simp only [List.lookup, hbeq] at h ⊢; exact ih h

/-- Lookup in an appended association list when the key is absent on the
left. -/
theorem lookup_append_of_none {β : Type} (l1 l2 : List (String × β)) (k : String)
    (h : l1.lookup k = none) : (l1 ++ l2).lookup k = l2.lookup k := by
  induction l1 with
  | nil => rfl
  | cons p l ih =>
    rcases p with ⟨k1, v1⟩
    by_cases hk : k = k1
    · have hbeq : (k == k1) = true := by simp [hk]
      simp only [List.lookup, hbeq] at h
      exact absurd h (Option.some_ne_none _)
    · have hbeq : (k == k1) = false := by simp [hk]
      simp only [List.lookup, hbeq] at h ⊢; exact ih h

/-- A repair step never changes an existing binding. -/
theorem repairStep_preserves (kvs : List (String × Json)) (g f : String) (v : Json)
    (h : kvs.lookup f = some v) : (repairStep kvs g).lookup f = some v := by
  unfold repairStep
  by_cases hg : (kvs.lookup g).isSome
  · rw [if_pos hg]; exact h
  · rw [if_neg hg]; exact lookup_append_of_some _ _ _ _ h

/-- The whole repair loop never changes an existing binding. -/
theorem repairFold_preserves (fs : List String) (kvs : List (String × Json))
    (f : String) (v : Json) (h : kvs.lookup f = some v) :
    (fs.foldl repairStep kvs).lookup f = some v := by
  induction fs generalizing kvs with
  | nil => exact h
  | cons g fs ih => exact ih _ (repairStep_preserves kvs g f v h)

/-- After the repair loop, a field of the list that was absent holds its
documented default. -/
theorem repairFold_default (fs : List String) (kvs : List (String × Json))
    (f : String) (hf : f ∈ fs) (h : kvs.lookup f = none) :
    (fs.foldl repairStep kvs).lookup f = some (defaultFor f) := by
  induction fs generalizing kvs with
  | nil => cases hf
  | cons g fs ih =>
    rw [List.foldl_cons]
    by_cases hgf : g = f
    · subst hgf
      have hstep : (repairStep kvs g).lookup g = some (defaultFor g) := by
        unfold repairStep
        rw [h]
        simp only [Option.isSome_none, Bool.false_eq_true, if_false]
        rw [lookup_append_of_none _ _ _ h]
        simp [List.lookup]
      exact repairFold_preserves fs _ g (defaultFor g) hstep
    · have hf2 : f ∈ fs := by
        cases hf with
        | head => exact absurd rfl hgf
        | tail _ h2 => exact h2
      have hstep : (repairStep kvs g).lookup f = none := by
        unfold repairStep
        by_cases hg : (kvs.lookup g).isSome
        · rw [if_pos hg]; exact h
        · rw [if_neg hg]
          rw [lookup_append_of_none _ _ _ h]
          have hfg : ¬f = g := fun hh => hgf hh.symm
          have hbeq : (f == g) = false := by simp [hfg]
          simp only [List.lookup, hbeq]
      exact ih _ hf2 hstep

/-- C4: for every successfully parsed analysis object, the repaired
result of `_analyze_profile` contains every required field; a field that
was missing holds its documented default (empty list for `strengths` and
`weaknesses`, the sentinel string for the text fields), a field that was
present keeps its value, and the per-field repair loop is a total
function (no exception). -/
theorem repair_fields_complete (kvs : List (String × Json)) (f : String)
    (hf : f ∈ requiredFields) :
    ((repairFields kvs).lookup f).isSome = true
    ∧ (kvs.lookup f = none →
        (repairFields kvs).lookup f = some (defaultFor f))
    ∧ (∀ v, kvs.lookup f = some v → (repairFields kvs).lookup f = some v) := by
  refine ⟨?_, ?_, ?_⟩
  · cases h : kvs.lookup f with
    | none => rw [repairFields, repairFold_default requiredFields kvs f hf h]; rfl
    | some v => rw [repairFields, repairFold_preserves requiredFields kvs f v h]; rfl
  · intro h
    exact repairFold_default requiredFields kvs f hf h
  · intro v h
    exact repairFold_preserves requiredFields kvs f v h

/-- C4 witness: on an object carrying only `strengths`, the repaired
result still has `experience_level`, set to the sentinel default, while
`strengths` keeps its value. -/
theorem repair_fields_complete_witness :
    ((repairFields [("strengths", Json.arr [Json.str "x"])]).lookup
        "experience_level").isSome = true
    ∧ (repairFields [("strengths", Json.arr [Json.str "x"])]).lookup
        "experience_level" = some (Json.str "Not enough information to analyze")
    ∧ (repairFields [("strengths", Json.arr [Json.str "x"])]).lookup
        "strengths" = some (Json.arr [Json.str "x"]) := by
  have h := repair_fields_complete [("strengths", Json.arr [Json.str "x"])]
    "experience_level" (by decide)
  have h2 := repair_fields_complete [("strengths", Json.arr [Json.str "x"])]
    "strengths" (by decide)
  exact ⟨h.1, by rw [h.2.1 (by rfl)]; rfl, h2.2.2 _ (by rfl)⟩

/-- The append-on-success loop of `_extract_skills` is `filterMap` of the
per-item validation. -/
theorem skillsFromArr_eq_filterMap (xs : List Json) :
    skillsFromArr xs = xs.filterMap validateSkill := by
  have hgen : ∀ (l : List Json) (acc : List Skill),
      l.foldl (fun acc j =>
        match validateSkill j with
        | some s => acc ++ [s]
        | none => acc) acc = acc ++ l.filterMap validateSkill := by
    intro l
    induction l with
    | nil => intro acc; simp
    | cons j l ih =>
      intro acc
      rw [List.foldl_cons, List.filterMap_cons]
      cases h : validateSkill j with
      | none => rw [ih]
      | some s => rw [ih]; simp
  have h := hgen xs []
  simpa [skillsFromArr] using h

/-- The number of items surviving `filterMap` is the number of items on
which the function succeeds. -/
theorem length_filterMap_eq_countP {β γ : Type} (f : β → Option γ) (l : List β) :
    (l.filterMap f).length = l.countP (fun x => (f x).isSome) := by
  induction l with
  | nil => rfl
  | cons x l ih =>
    rw [List.filterMap_cons, List.countP_cons]
    cases h : f x with
    | none => simp [h, ih]
    | some y => simp [h, ih]

/-- C5: a parsed skill list of three items of which exactly one fails
`Skill` validation yields exactly the two valid items, in their original
order (the loop appends each validated item and drops the failing one
without aborting the batch). -/
theorem skills_one_invalid_dropped (items : List Json)
    (hlen : items.length = 3)
    (hcount : items.countP (fun j => (validateSkill j).isSome) = 2) :
    skillsFromArr items = items.filterMap validateSkill
    ∧ (skillsFromArr items).length = 2 := by
  refine ⟨skillsFromArr_eq_filterMap items, ?_⟩
  rw [skillsFromArr_eq_filterMap items, length_filterMap_eq_countP]
  exact hcount

/-- C5 witness: two valid skill objects around one with an invalid
category; the result is exactly the two valid skills, case-normalised,
in order. -/
theorem skills_one_invalid_dropped_witness :
    skillsFromArr
        [Json.obj [("name", Json.str "Python"), ("category", Json.str "Technical"),
                   ("level", Json.str "Advanced"), ("years_experience", Json.num ⟨5, 0⟩)],
         Json.obj [("name", Json.str "X"), ("category", Json.str "alien"),
                   ("level", Json.str "expert"), ("years_experience", Json.num ⟨1, 0⟩)],
         Json.obj [("name", Json.str "Leadership"), ("category", Json.str "soft"),
                   ("level", Json.str "intermediate"), ("years_experience", Json.num ⟨3, 0⟩)]] =
      [⟨"Python", "technical", "advanced", ⟨5, 0⟩⟩,
       ⟨"Leadership", "soft", "intermediate", ⟨3, 0⟩⟩]
    ∧ (skillsFromArr
        [Json.obj [("name", Json.str "Python"), ("category", Json.str "Technical"),
                   ("level", Json.str "Advanced"), ("years_experience", Json.num ⟨5, 0⟩)],
         Json.obj [("name", Json.str "X"), ("category", Json.str "alien"),
                   ("level", Json.str "expert"), ("years_experience", Json.num ⟨1, 0⟩)],
         Json.obj [("name", Json.str "Leadership"), ("category", Json.str "soft"),
                   ("level", Json.str "intermediate"), ("years_experience", Json.num ⟨3, 0⟩)]]).length = 2 := by
  have h := skills_one_invalid_dropped
    [Json.obj [("name", Json.str "Python"), ("category", Json.str "Technical"),
               ("level", Json.str "Advanced"), ("years_experience", Json.num ⟨5, 0⟩)],
     Json.obj [("name", Json.str "X"), ("category", Json.str "alien"),
               ("level", Json.str "expert"), ("years_experience", Json.num ⟨1, 0⟩)],
     Json.obj [("name", Json.str "Leadership"), ("category", Json.str "soft"),
               ("level", Json.str "intermediate"), ("years_experience", Json.num ⟨3, 0⟩)]]
    (by rfl) (by rfl)
  exact ⟨by rw [h.1]; rfl, h.2⟩

/-- The retry loop under an always-failing call, from attempt `a` with
`fuel` attempts left (`a + fuel = N`, at least one attempt left): the
trace is call-sleep pairs for every attempt but the last, a bare call for
the last, and the loop ends by raising. -/
theorem retryAux_all_fail {α : Type} (results : Nat → Option α) (N : Nat) (d : ℚ)
    (hfail : ∀ a, results a = none) :
    ∀ fuel a, a + fuel = N → 1 ≤ fuel →
      retryAux results N d a fuel =
        (((List.range' a (fuel - 1)).flatMap
            (fun k => [RetryEvent.call, RetryEvent.sleep (d * 2 ^ k)])) ++ [RetryEvent.call],
         RetryOutcome.raised) := by
  intro fuel
  induction fuel with
  | zero => intro a _ h1; cases h1
  | succ f ih =>
    intro a hN _
    rw [retryAux, hfail a]
    cases f with
    | zero =>
      have hcond : ¬a < N - 1 := by omega
      rw [if_neg hcond]
      simp [List.range']
    | succ f2 =>
      have hcond : a < N - 1 := by omega
      rw [if_pos hcond]
      have hrec := ih (a + 1) (by omega) (by omega)
      rw [hrec]
      have hrange : List.range' a (f2 + 2 - 1) = a :: List.range' (a + 1) (f2 + 1 - 1) := by
        have : f2 + 2 - 1 = (f2 + 1 - 1) + 1 := by omega
        rw [this, List.range'_succ]
      rw [hrange]
      simp

/-- Calls in a pair-trace: one per pair plus the final bare call. -/
theorem countCalls_pairs (l : List Nat) (f : Nat → ℚ) :
    countCalls ((l.flatMap (fun k => [RetryEvent.call, RetryEvent.sleep (f k)]))
        ++ [RetryEvent.call]) = l.length + 1 := by
  induction l with
  | nil => rfl
  | cons k l ih =>
    simp only [List.flatMap_cons, List.append_assoc, List.cons_append, List.nil_append]
    rw [countCalls] at ih ⊢
    simp only [List.countP_cons] at ih ⊢
    simp only [List.countP_append] at ih ⊢
    simp_all

/-- Sleeps in a pair-trace: exactly the per-pair delays, in order. -/
theorem sleepDelays_pairs (l : List Nat) (f : Nat → ℚ) :
    sleepDelays ((l.flatMap (fun k => [RetryEvent.call, RetryEvent.sleep (f k)]))
        ++ [RetryEvent.call]) = l.map f := by
  induction l with
  | nil => rfl
  | cons k l ih =>
    simp only [List.flatMap_cons, List.append_assoc, List.cons_append, List.nil_append]
    rw [sleepDelays] at ih ⊢
    simp only [List.filterMap_append, List.filterMap_cons] at ih ⊢
    simp_all

/-- C1: with `max_retries = N ≥ 1` and an underlying call that fails on
every attempt, the retry loop shared by `OpenRouterLLM.generate_text` and
`TavilySearchTool.search` invokes the call exactly N times, sleeps
exactly N-1 times with the k-th sleep lasting `retry_delay * 2 ^ k`
seconds (k = 0, …, N-2), and then raises the synthesized failure. -/
theorem retry_exhaustion {α : Type} (results : Nat → Option α) (N : Nat) (d : ℚ)
    (hfail : ∀ a, results a = none) (hN : 1 ≤ N) :
    (retryRun results N d).2 = RetryOutcome.raised
    ∧ countCalls (retryRun results N d).1 = N
    ∧ sleepDelays (retryRun results N d).1 =
        (List.range (N - 1)).map (fun k => d * 2 ^ k) := by
  have h := retryAux_all_fail results N d hfail N 0 (by omega) hN
  have hrun : retryRun results N d =
      (((List.range' 0 (N - 1)).flatMap
          (fun k => [RetryEvent.call, RetryEvent.sleep (d * 2 ^ k)])) ++ [RetryEvent.call],
       RetryOutcome.raised) := h
  rw [hrun]
  refine ⟨rfl, ?_, ?_⟩
  · rw [countCalls_pairs]
    simp [List.length_range']
    omega
  · rw [sleepDelays_pairs]
    rw [List.range_eq_range']

/-- C1 witness: three attempts at base delay 1 produce three calls, two
sleeps of 1 and 2 seconds, and a raised failure. -/
theorem retry_exhaustion_witness :
    (retryRun (fun _ => (none : Option Unit)) 3 1).2 = RetryOutcome.raised
    ∧ countCalls (retryRun (fun _ => (none : Option Unit)) 3 1).1 = 3
    ∧ sleepDelays (retryRun (fun _ => (none : Option Unit)) 3 1).1 =
        (List.range 2).map (fun k => (1 : ℚ) * 2 ^ k) := by
  exact retry_exhaustion (fun _ => (none : Option Unit)) 3 1 (fun _ => rfl) (by omega)

/-- C7, amended: `get_completion` returns the empty string and never
throws for every envelope in which the expected fields are absent keys —
the `choices` key missing entirely, or the first choice (an object)
lacking `message`, or the message object lacking `content` — provided
`choices`, when present, is a nonempty list whose first element is an
object.  (The unamended claim fails when `choices` is present but an
empty list: the subscript `[0]` raises `IndexError`, see the
counterexample.) -/
theorem get_completion_missing_fields (kvs ckvs mkvs : List (String × Json))
    (rest : List Json) :
    (kvs.lookup "choices" = none →
      get_completion (Json.obj kvs) = Except.ok (Json.str ""))
    ∧ (kvs.lookup "choices" = some (Json.arr (Json.obj ckvs :: rest)) →
        ckvs.lookup "message" = none →
        get_completion (Json.obj kvs) = Except.ok (Json.str ""))
    ∧ (kvs.lookup "choices" = some (Json.arr (Json.obj ckvs :: rest)) →
        ckvs.lookup "message" = some (Json.obj mkvs) →
        mkvs.lookup "content" = none →
        get_completion (Json.obj kvs) = Except.ok (Json.str "")) := by
  refine ⟨?_, ?_, ?_⟩
  · intro h
    simp [get_completion, pyGet, pyIndex0, h, List.lookup, Bind.bind, Except.bind]
  · intro h hm
    simp [get_completion, pyGet, pyIndex0, h, hm, List.lookup, Bind.bind, Except.bind]
  · intro h hm hc
    simp [get_completion, pyGet, pyIndex0, h, hm, hc, List.lookup, Bind.bind, Except.bind]

/-- C7 witness for the amended claim: an envelope with no `choices` key
at all yields the empty string without raising. -/
theorem get_completion_missing_fields_witness :
    get_completion (Json.obj [("id", Json.str "x")]) = Except.ok (Json.str "") := by
  exact (get_completion_missing_fields [("id", Json.str "x")] [] [] []).1 (by rfl)

/-- Finding a character that is absent on the left of an append. -/
theorem findChar_append_right (c : Char) (l1 l2 : List Char)
    (h : c ∉ l1) :
    findChar c (l1 ++ l2) = (findChar c l2).map (· + l1.length) := by
  induction l1 with
  | nil => simp
  | cons x xs ih =>
    have hx : ¬x = c := fun hh => h (hh ▸ List.mem_cons_self x xs)
    have hxs : c ∉ xs := fun hh => h (List.mem_cons_of_mem x hh)
    rw [List.cons_append, findChar, if_neg hx, ih hxs]
    cases h2 : findChar c l2 with
    | none => rfl
    | some j => simp [List.length_cons]; omega

/-- Reverse-finding a character that is absent on the right of an
append. -/
theorem rfindChar_append_right (c : Char) (l1 l2 : List Char)
    (h : c ∉ l2) :
    rfindChar c (l1 ++ l2) = rfindChar c l1 := by
  have h2 : rfindChar c l2 = none := by
    induction l2 with
    | nil => rfl
    | cons x xs ih =>
      have hx : ¬x = c := fun hh => h (hh ▸ List.mem_cons_self x xs)
      have hxs : c ∉ xs := fun hh => h (List.mem_cons_of_mem x hh)
      simp [rfindChar, hx, ih hxs]
  induction l1 with
  | nil => simpa using h2
  | cons x xs ih => rw [List.cons_append, rfindChar, ih, rfindChar]

/-- Reverse-finding a character found on the right of an append. -/
theorem rfindChar_append_left (c : Char) (l1 l2 : List Char) (i : Nat)
    (h : rfindChar c l2 = some i) :
    rfindChar c (l1 ++ l2) = some (l1.length + i) := by
  induction l1 with
  | nil => simpa using h
  | cons x xs ih =>
    rw [List.cons_append, rfindChar, ih]
    simp [List.length_cons]
    omega

/-- A list starts with itself followed by anything. -/
theorem startsWithList_self_append (p rest : List Char) :
    startsWithList p (p ++ rest) = true := by
  induction p with
  | nil => rfl
  | cons x xs ih => simp [startsWithList, ih]

/-- Mismatching head characters refute a starts-with test. -/
theorem startsWithList_head_ne (x c : Char) (ps cs : List Char) (h : ¬x = c) :
    startsWithList (x :: ps) (c :: cs) = false := by
  simp [startsWithList, h]

/-- Stripping keeps a list whose first and last characters are not
whitespace. -/
theorem pyStrip_sandwich (a b : Char) (l : List Char)
    (ha : isStripWs a = false) (hb : isStripWs b = false) :
    pyStrip ((a :: l) ++ [b]) = (a :: l) ++ [b] := by
  unfold pyStrip
  rw [List.cons_append, List.dropWhile_cons, ha]
  simp only [Bool.false_eq_true, if_false]
  rw [show (a :: (l ++ [b])).reverse = b :: (l.reverse ++ [a]) by simp]
  rw [List.dropWhile_cons, hb]
  simp

/-- Stripping a list wrapped in single newlines, whose content starts
and ends with non-whitespace, yields the content. -/
theorem pyStrip_newline_wrap (a b : Char) (l : List Char)
    (ha : isStripWs a = false) (hb : isStripWs b = false) :
    pyStrip ('\n' :: (((a :: l) ++ [b]) ++ ['\n'])) = (a :: l) ++ [b] := by
  unfold pyStrip
  rw [show ('\n' :: (((a :: l) ++ [b]) ++ ['\n'])) = '\n' :: (a :: ((l ++ [b]) ++ ['\n'])) by simp]
  rw [List.dropWhile_cons]
  simp only [show isStripWs '\n' = true from rfl, if_true]
  rw [List.dropWhile_cons, ha]
  simp only [Bool.false_eq_true, if_false]
  rw [show (a :: ((l ++ [b]) ++ ['\n'])).reverse = '\n' :: (b :: (l.reverse ++ [a])) by simp]
  rw [List.dropWhile_cons]
  simp only [show isStripWs '\n' = true from rfl, if_true]
  rw [List.dropWhile_cons, hb]
  simp

/-- The cleaning step leaves a response untouched when it starts and
ends with non-whitespace, non-backtick characters. -/
theorem stripFences_sandwich (a b : Char) (l : List Char)
    (ha : isStripWs a = false) (hb : isStripWs b = false)
    (hba : ¬bq = a) (hbb : ¬bq = b) :
    stripFences ((a :: l) ++ [b]) = (a :: l) ++ [b] := by
  unfold stripFences
  rw [pyStrip_sandwich a b l ha hb]
  have hsw : startsWithList "```json".toList ((a :: l) ++ [b]) = false := by
    rw [show "```json".toList = bq :: "``json".toList from by decide, List.cons_append]
    exact startsWithList_head_ne _ _ _ _ hba
  have hew : endsWithList "```".toList ((a :: l) ++ [b]) = false := by
    unfold endsWithList
    rw [show ("```".toList).reverse = bq :: "``".toList.reverse from by decide]
    rw [show ((a :: l) ++ [b]).reverse = b :: (l.reverse ++ [a]) from by simp]
    exact startsWithList_head_ne _ _ _ _ hbb
  simp only [hsw, hew, Bool.false_eq_true, if_false]
  exact pyStrip_sandwich a b l ha hb

/-- The cleaning step unwraps a code-fenced response: strip, drop the
"```json" opener and the "```" closer, strip the newlines. -/
theorem stripFences_wrapFence (a b : Char) (l : List Char)
    (ha : isStripWs a = false) (hb : isStripWs b = false) :
    stripFences (wrapFence ((a :: l) ++ [b])) = (a :: l) ++ [b] := by
  have hdecomp : "```json\n".toList ++ (((a :: l) ++ [b]) ++ "\n```".toList) =
      (bq :: ("``json\n".toList ++ (((a :: l) ++ [b]) ++ "\n``".toList))) ++ [bq] := by
    rw [show "```json\n".toList = bq :: "``json\n".toList from by decide,
        show "\n```".toList = "\n``".toList ++ [bq] from by decide]
    simp
  have hstrip1 : pyStrip ("```json\n".toList ++ (((a :: l) ++ [b]) ++ "\n```".toList)) =
      "```json\n".toList ++ (((a :: l) ++ [b]) ++ "\n```".toList) := by
    rw [hdecomp, pyStrip_sandwich bq bq _ (by decide) (by decide)]
  have hshape : "```json\n".toList ++ (((a :: l) ++ [b]) ++ "\n```".toList) =
      "```json".toList ++ ('\n' :: (((a :: l) ++ [b]) ++ "\n```".toList)) := by
    rw [show "```json\n".toList = "```json".toList ++ ['\n'] from by decide]
    simp
  have hsw : startsWithList "```json".toList
      ("```json\n".toList ++ (((a :: l) ++ [b]) ++ "\n```".toList)) = true := by
    rw [hshape]; exact startsWithList_self_append _ _
  have hdrop : List.drop 7 ("```json\n".toList ++ (((a :: l) ++ [b]) ++ "\n```".toList)) =
      '\n' :: (((a :: l) ++ [b]) ++ "\n```".toList) := by
    rw [hshape, show (7 : Nat) = ("```json".toList).length from by decide, List.drop_left]
  have hew : endsWithList "```".toList ('\n' :: (((a :: l) ++ [b]) ++ "\n```".toList)) = true := by
    unfold endsWithList
    rw [show ('\n' :: (((a :: l) ++ [b]) ++ "\n```".toList)).reverse =
        ("```".toList).reverse ++ ('\n' :: (((a :: l) ++ [b]).reverse ++ ['\n'])) from by
      rw [show "\n```".toList = ['\n'] ++ "```".toList from by decide]
      simp]
    exact startsWithList_self_append _ _
  have htake : List.take (('\n' :: (((a :: l) ++ [b]) ++ "\n```".toList)).length - 3)
      ('\n' :: (((a :: l) ++ [b]) ++ "\n```".toList)) =
      '\n' :: (((a :: l) ++ [b]) ++ ['\n']) := by
    rw [show ('\n' :: (((a :: l) ++ [b]) ++ "\n```".toList)) =
        ('\n' :: (((a :: l) ++ [b]) ++ ['\n'])) ++ "```".toList from by
      rw [show "\n```".toList = ['\n'] ++ "```".toList from by decide]
      simp]
    have hlen3 : ((('\n' :: (((a :: l) ++ [b]) ++ ['\n'])) ++ "```".toList).length - 3) =
        ('\n' :: (((a :: l) ++ [b]) ++ ['\n'])).length := by
      simp
    rw [hlen3, List.take_left]
  unfold stripFences wrapFence
  show (let c1 := pyStrip ("```json\n".toList ++ (((a :: l) ++ [b]) ++ "\n```".toList));
    let c2 := if startsWithList "```json".toList c1 = true then List.drop 7 c1 else c1;
    let c3 := if endsWithList "```".toList c2 = true then List.take (c2.length - 3) c2 else c2;
    pyStrip c3) = (a :: l) ++ [b]
  simp only [hstrip1, hsw, if_true, hdrop, hew, htake]
  exact pyStrip_newline_wrap a b l ha hb

/-- The JSON-locating pipeline on a response that embeds a
delimiter-bracketed payload, with no opening delimiter in the prefix and
no closing delimiter in the suffix: the slice is exactly the payload, so
the pipeline returns its parse when it succeeds and otherwise falls back
to the cleaned whole response. -/
theorem parseStageWith_embedded (oC cC : Char) (p mid q : List Char)
    (hp : oC ∉ p) (hq : cC ∉ q) :
    parseStageWith oC cC (p ++ (((oC :: mid) ++ [cC]) ++ q)) =
      (match jsonLoads ((oC :: mid) ++ [cC]) with
       | some v => some v
       | none => jsonLoads (stripFences (p ++ (((oC :: mid) ++ [cC]) ++ q)))) := by
  have hfind : findChar oC (p ++ (((oC :: mid) ++ [cC]) ++ q)) = some p.length := by
    rw [findChar_append_right _ _ _ hp]
    rw [show ((oC :: mid) ++ [cC]) ++ q = oC :: ((mid ++ [cC]) ++ q) from by simp]
    rw [findChar, if_pos rfl]
    simp
  have hrfind : rfindChar cC (p ++ (((oC :: mid) ++ [cC]) ++ q)) =
      some (p.length + (mid.length + 1)) := by
    have hin : rfindChar cC ((oC :: mid) ++ [cC]) = some (mid.length + 1) := by
      have hone : rfindChar cC [cC] = some 0 := by simp [rfindChar]
      rw [rfindChar_append_left _ _ _ _ hone]
      simp
    have hmidq : rfindChar cC (((oC :: mid) ++ [cC]) ++ q) = some (mid.length + 1) := by
      rw [rfindChar_append_right _ _ _ hq, hin]
    exact rfindChar_append_left _ _ _ _ hmidq
  have hslice : pySlice (p ++ (((oC :: mid) ++ [cC]) ++ q)) p.length
      (p.length + (mid.length + 1)) = (oC :: mid) ++ [cC] := by
    unfold pySlice
    rw [show p ++ (((oC :: mid) ++ [cC]) ++ q) = p ++ ((((oC :: mid) ++ [cC])) ++ q) from rfl]
    rw [show (p ++ ((((oC :: mid) ++ [cC])) ++ q)).drop p.length = ((oC :: mid) ++ [cC]) ++ q from
      List.drop_left p _]
    rw [show p.length + (mid.length + 1) + 1 - p.length = mid.length + 2 from by omega]
    rw [show mid.length + 2 = ((oC :: mid) ++ [cC]).length from by simp, List.take_left]
  have hlt : p.length < p.length + (mid.length + 1) := by omega
  unfold parseStageWith
  rw [hfind, hrfind]
  simp only [hlt, if_true, hslice]

/-- C3, amended: a well-formed JSON array embedded in a larger text blob
is recovered exactly, provided the prefix contains no `[` and the suffix
contains no `]` (the unamended claim, with arbitrary prefix and suffix,
fails: a stray `]` in the suffix widens the slice and defeats all three
parse attempts — see the counterexample).  The array is written in
canonical serialized form, starting with `[` and ending with `]`. -/
theorem embedded_array_recovered (p mid q : List Char) (xs : List Json)
    (hp : '[' ∉ p) (hq : ']' ∉ q)
    (hparse : jsonLoads (('[' :: mid) ++ [']']) = some (Json.arr xs)) :
    parseStageList (p ++ ((('[' :: mid) ++ [']']) ++ q)) = some (Json.arr xs)
    ∧ extract_skills (some (p ++ ((('[' :: mid) ++ [']']) ++ q))) = skillsFromArr xs := by
  have h := parseStageWith_embedded '[' ']' p mid q hp hq
  rw [hparse] at h
  have hmain : parseStageList (p ++ ((('[' :: mid) ++ [']']) ++ q)) = some (Json.arr xs) := h
  refine ⟨hmain, ?_⟩
  simp only [extract_skills, hmain]

/-- C3 amended-claim witness: the array "[1, 2]" inside a chatty
response whose prefix has no `[` and whose suffix has no `]` is recovered
exactly, and the skill loop then runs on exactly that array. -/
theorem embedded_array_recovered_witness :
    parseStageList ("Here are the skills: ".toList ++
        ((('[' :: " 1, 2 ".toList) ++ [']']) ++ " hope that helps".toList)) =
      some (Json.arr [Json.num ⟨1, 0⟩, Json.num ⟨2, 0⟩])
    ∧ extract_skills (some ("Here are the skills: ".toList ++
        ((('[' :: " 1, 2 ".toList) ++ [']']) ++ " hope that helps".toList))) =
      skillsFromArr [Json.num ⟨1, 0⟩, Json.num ⟨2, 0⟩] := by
  exact embedded_array_recovered "Here are the skills: ".toList " 1, 2 ".toList
    " hope that helps".toList [Json.num ⟨1, 0⟩, Json.num ⟨2, 0⟩]
    (by decide) (by decide) (by rfl)

/-- The JSON-locating pipeline is unchanged by wrapping the response in
code-fence markers, for any payload written between its two delimiters:
both sides reduce to the parse of the delimited payload, the fenced side
through the marker-stripping last resort. -/
theorem parseStageWith_fence (oC cC : Char) (mid : List Char)
    (ha : isStripWs oC = false) (hb : isStripWs cC = false)
    (hba : ¬bq = oC) (hbb : ¬bq = cC)
    (hop : oC ∉ "```json\n".toList) (hcl : cC ∉ "\n```".toList) :
    parseStageWith oC cC (wrapFence ((oC :: mid) ++ [cC])) =
      parseStageWith oC cC ((oC :: mid) ++ [cC]) := by
  have hwrap : parseStageWith oC cC
      ("```json\n".toList ++ ((((oC :: mid) ++ [cC])) ++ "\n```".toList)) =
      (match jsonLoads ((oC :: mid) ++ [cC]) with
       | some v => some v
       | none => jsonLoads (stripFences
           ("```json\n".toList ++ ((((oC :: mid) ++ [cC])) ++ "\n```".toList)))) :=
    parseStageWith_embedded oC cC "```json\n".toList mid "\n```".toList hop hcl
  have hsf : stripFences (wrapFence ((oC :: mid) ++ [cC])) = (oC :: mid) ++ [cC] :=
    stripFences_wrapFence oC cC mid ha hb
  have hplain : parseStageWith oC cC ((oC :: mid) ++ [cC]) =
      (match jsonLoads ((oC :: mid) ++ [cC]) with
       | some v => some v
       | none => jsonLoads ((oC :: mid) ++ [cC])) := by
    have hfind : findChar oC ((oC :: mid) ++ [cC]) = some 0 := by
      rw [show ((oC :: mid) ++ [cC]) = oC :: (mid ++ [cC]) from by simp]
      rw [findChar, if_pos rfl]
    have hrfind : rfindChar cC ((oC :: mid) ++ [cC]) = some (mid.length + 1) := by
      have hone : rfindChar cC [cC] = some 0 := by simp [rfindChar]
      rw [rfindChar_append_left _ _ _ _ hone]
      simp
    have hslice : pySlice ((oC :: mid) ++ [cC]) 0 (mid.length + 1) =
        (oC :: mid) ++ [cC] := by
      unfold pySlice
      rw [List.drop_zero]
      rw [show mid.length + 1 + 1 - 0 = ((oC :: mid) ++ [cC]).length from by simp]
      exact List.take_length _
    have hsfp : stripFences ((oC :: mid) ++ [cC]) = (oC :: mid) ++ [cC] :=
      stripFences_sandwich oC cC mid ha hb hba hbb
    have hlt : (0 : Nat) < mid.length + 1 := by omega
    unfold parseStageWith
    rw [hfind, hrfind]
    simp only [hlt, if_true, hslice, hsfp]
  have hwrap2 : parseStageWith oC cC (wrapFence ((oC :: mid) ++ [cC])) =
      (match jsonLoads ((oC :: mid) ++ [cC]) with
       | some v => some v
       | none => jsonLoads (stripFences (wrapFence ((oC :: mid) ++ [cC])))) := hwrap
  rw [hwrap2, hsf, hplain]

/-- C8: wrapping a delimited JSON payload in code-fence markers (the
"```json" opener line and the "```" closer line) does not change what the
extraction pipelines parse: the located-slice parse, and hence the
recovered payload, is identical for the wrapped and unwrapped response,
both for the array-shaped `_extract_skills` pipeline and for the
object-shaped `_analyze_profile` pipeline. -/
theorem fence_wrap_invariant (amid omid : List Char) :
    parseStageList (wrapFence (('[' :: amid) ++ [']'])) =
      parseStageList (('[' :: amid) ++ [']'])
    ∧ extract_skills (some (wrapFence (('[' :: amid) ++ [']']))) =
        extract_skills (some (('[' :: amid) ++ [']']))
    ∧ parseStageObj (wrapFence (('\x7b' :: omid) ++ ['\x7d'])) =
        parseStageObj (('\x7b' :: omid) ++ ['\x7d'])
    ∧ analyze_profile (some (wrapFence (('\x7b' :: omid) ++ ['\x7d']))) =
        analyze_profile (some (('\x7b' :: omid) ++ ['\x7d'])) := by
  have h1 : parseStageList (wrapFence (('[' :: amid) ++ [']'])) =
      parseStageList (('[' :: amid) ++ [']']) :=
    parseStageWith_fence '[' ']' amid (by decide) (by decide) (by decide) (by decide)
      (by decide) (by decide)
  have h2 : parseStageObj (wrapFence (('\x7b' :: omid) ++ ['\x7d'])) =
      parseStageObj (('\x7b' :: omid) ++ ['\x7d']) :=
    parseStageWith_fence '\x7b' '\x7d' omid (by decide) (by decide) (by decide) (by decide)
      (by decide) (by decide)
  refine ⟨h1, ?_, h2, ?_⟩
  · simp only [extract_skills, h1]
  · simp only [analyze_profile, h2]
